import Mathlib

/-!
Verification of the backend relay service (`backend/main.py`).

The service exposes three POST endpoints (`/explain`, `/generate`, `/fix`).
Each validates a `language` field, builds a prompt, invokes a remote
completion API once, post-processes the reply, and returns a typed result.
The `/fix` endpoint additionally classifies the error message with
`detect_error_type`, extracts a JSON array from the model reply with the
regex `\[.*\]` (DOTALL), parses it, and validates each element against the
`Edit` model.

Modelling conventions:
* Python strings are `List Char`; `str.lower` is modelled character-wise by
  `Char.toLower` (the ASCII case mapping, which covers every keyword and
  language comparison the code performs).
* The remote completion call is external; its outcome is a parameter of
  type `LLMOutcome` (a successful reply, a `RateLimitError`, or any other
  exception).
* `json.loads` is the Python standard library; it is a parameter
  `loads : List Char → Except (List Char) Json` of the `/fix` handler,
  where `Json` is a structural JSON value type (integer numerals; the
  claims under study involve no fractional numbers).
* Handlers return `Except HTTPError α`: `HTTPException(status, detail)`
  becomes `.error ⟨status, detail⟩`.
-/

namespace Backend

/-- Python `str.lower` applied to `error_message`, modelled character-wise
by the ASCII case mapping `Char.toLower`. -/
def lowerStr (s : List Char) : List Char := s.map Char.toLower

/-- Does `needle` occur at the head of `haystack`? (helper for the Python
substring test `needle in haystack`). -/
def startsWith : List Char → List Char → Bool
  | [], _ => true
  | _ :: _, [] => false
  | a :: as, b :: bs => a == b && startsWith as bs

/-- The Python substring containment test `needle in haystack`. -/
def containsSub (needle : List Char) : List Char → Bool
  | [] => startsWith needle []
  | b :: bs => startsWith needle (b :: bs) || containsSub needle bs

/-- Classifier `detect_error_type` (backend/main.py, lines 149-170): lowercase the
message, then run the keyword checks in order and return the category of
the first that matches, falling back to `"general_syntax"`. -/
def detect_error_type (error_message : List Char) : String :=
  let error_msg := lowerStr error_message
  if containsSub "indentationerror".toList error_msg then
    "indentation"
  else if containsSub "syntaxerror".toList error_msg &&
      (containsSub ":".toList error_msg || containsSub "colon".toList error_msg) then
    "missing_colon"
  else if containsSub "syntaxerror".toList error_msg &&
      (containsSub "(".toList error_msg || containsSub ")".toList error_msg ||
       containsSub "never closed".toList error_msg) then
    "missing_parenthesis"
  else if containsSub "syntaxerror".toList error_msg &&
      (containsSub "[".toList error_msg || containsSub "]".toList error_msg) then
    "missing_bracket"
  else if containsSub "syntaxerror".toList error_msg &&
      (containsSub "\x7b".toList error_msg || containsSub "\x7d".toList error_msg) then
    "missing_brace"
  else if containsSub "syntaxerror".toList error_msg &&
      (containsSub "quote".toList error_msg || containsSub "string".toList error_msg) then
    "quote_error"
  else if containsSub "nameerror".toList error_msg then
    "undefined_variable"
  else if containsSub "syntaxerror".toList error_msg &&
      containsSub ",".toList error_msg then
    "missing_comma"
  else
    "general_syntax"

/-- The keyword checks of the classifier, in source order: each entry pairs the
boolean test performed on the lowercased message with the category it
returns.  This is the sequence of `if`/`elif` conditions of
`detect_error_type`, read off line by line. -/
def checks : List ((List Char → Bool) × String) :=
  [ (fun m => containsSub "indentationerror".toList m, "indentation"),
    (fun m => containsSub "syntaxerror".toList m &&
      (containsSub ":".toList m || containsSub "colon".toList m), "missing_colon"),
    (fun m => containsSub "syntaxerror".toList m &&
      (containsSub "(".toList m || containsSub ")".toList m ||
       containsSub "never closed".toList m), "missing_parenthesis"),
    (fun m => containsSub "syntaxerror".toList m &&
      (containsSub "[".toList m || containsSub "]".toList m), "missing_bracket"),
    (fun m => containsSub "syntaxerror".toList m &&
      (containsSub "\x7b".toList m || containsSub "\x7d".toList m), "missing_brace"),
    (fun m => containsSub "syntaxerror".toList m &&
      (containsSub "quote".toList m || containsSub "string".toList m), "quote_error"),
    (fun m => containsSub "nameerror".toList m, "undefined_variable"),
    (fun m => containsSub "syntaxerror".toList m &&
      containsSub ",".toList m, "missing_comma") ]

/-- First-match selection over a list of checks, with the generic fallback
category when no check matches. -/
def firstMatch : List ((List Char → Bool) × String) → List Char → String
  | [], _ => "general_syntax"
  | (p, c) :: rest, m => if p m then c else firstMatch rest m

/-- The nine category strings `detect_error_type` can return. -/
def categories : List String :=
  ["indentation", "missing_colon", "missing_parenthesis", "missing_bracket",
   "missing_brace", "quote_error", "undefined_variable", "missing_comma",
   "general_syntax"]

/-! ### The regex `re.search(r"\[.*\]", raw, re.DOTALL)`

`re.search` tries each start position from the left; at a given start the
pattern `\[.*\]` matches when the character there is `[` and some `]`
occurs later, and the greedy `.*` (DOTALL, so it crosses newlines) makes
the match run to the **last** such `]`.  `findMatch` returns the index
pair `(start, end)` of `m.group(0)`, or `none` when the regex does not
match. -/

/-- Index of the last `]` in the list, if any. -/
def lastCloseIdx : List Char → Option Nat
  | [] => none
  | c :: rest =>
    match lastCloseIdx rest with
    | some j => some (j + 1)
    | none => if c = ']' then some 0 else none

/-- Leftmost-start, greedy-end match of `\[.*\]`: the pair of the index of
the starting `[` and the index of the final `]` of `m.group(0)`. -/
def findMatch : List Char → Option (Nat × Nat)
  | [] => none
  | c :: rest =>
    if c = '[' then
      match lastCloseIdx rest with
      | some j => some (0, j + 1)
      | none => (findMatch rest).map (fun p => (p.1 + 1, p.2 + 1))
    else
      (findMatch rest).map (fun p => (p.1 + 1, p.2 + 1))

/-- Model of `payload = m.group(0) if m else raw` (backend/main.py, lines 128-129):
the matched substring when the regex matches, the whole reply otherwise. -/
def extractPayload (raw : List Char) : List Char :=
  match findMatch raw with
  | some (i, j) => (raw.drop i).take (j + 1 - i)
  | none => raw

/-! ### Data model (backend/main.py, lines 16-49) -/

structure ExplainRequest where
  language : List Char
  snippet : List Char
deriving DecidableEq

structure ExplainResponse where
  explanation : List Char
deriving DecidableEq

structure GenerateRequest where
  language : List Char
  instructions : List Char
deriving DecidableEq

structure GenerateResponse where
  code : List Char
deriving DecidableEq

structure FixRequest where
  language : List Char
  snippet : List Char
  error : List Char
  start_line : Int
  start_char : Int
  end_line : Int
  end_char : Int
deriving DecidableEq

structure Edit where
  start_line : Int
  start_char : Int
  end_line : Int
  end_char : Int
  replacement : List Char
deriving DecidableEq

structure FixResponse where
  edits : List Edit
deriving DecidableEq

/-- Model of `HTTPException(status_code=..., detail=...)`. -/
structure HTTPError where
  status_code : Nat
  detail : List Char
deriving DecidableEq

/-- Outcome of the single remote completion call
`client.chat.completions.create(...)`: the reply text, a `RateLimitError`
(carrying its message), or any other exception (carrying its message). -/
inductive LLMOutcome where
  | ok (reply : List Char)
  | rateLimit (msg : List Char)
  | fail (msg : List Char)
deriving DecidableEq

/-- Structural JSON values as produced by `json.loads` (object fields in
textual order, later duplicates shadowing earlier ones; numerals are
integers -- no claim under study involves fractional numbers). -/
inductive Json where
  | null
  | bool (b : Bool)
  | num (n : Int)
  | str (s : List Char)
  | arr (elems : List Json)
  | obj (fields : List (List Char × Json))

/-- Python whitespace stripped by `str.strip()` (ASCII part). -/
def isStripChar (c : Char) : Bool :=
  c = ' ' || c = '\t' || c = '\n' || c = '\r' || c = '\x0b' || c = '\x0c'

/-- Model of `str.strip()`: remove leading and trailing whitespace. -/
def pyStrip (s : List Char) : List Char :=
  ((s.dropWhile isStripChar).reverse.dropWhile isStripChar).reverse

/-! ### /explain and /generate handlers (backend/main.py, lines 63-104)

Both check the language, then run the remote call inside `try`; *every*
exception raised there -- `RateLimitError` included, since it derives from
`Exception` -- is caught by the lone `except Exception` clause and mapped
to `HTTPException(500, f"LLM error: {e}")`. -/

def langRejectDetail : List Char := "Currently only Python is supported".toList

def llmErrDetail (msg : List Char) : List Char := "LLM error: ".toList ++ msg

/-- Body of `explain_snippet` after the language check (the `try` block). -/
def explainBody (llm : LLMOutcome) : Except HTTPError ExplainResponse :=
  match llm with
  | .ok reply => .ok ⟨pyStrip reply⟩
  | .rateLimit msg => .error ⟨500, llmErrDetail msg⟩
  | .fail msg => .error ⟨500, llmErrDetail msg⟩

/-- Handler `explain_snippet` (backend/main.py, lines 63-79). -/
def explain_snippet (llm : LLMOutcome) (req : ExplainRequest) :
    Except HTTPError ExplainResponse :=
  if lowerStr req.language ≠ "python".toList then
    .error ⟨400, langRejectDetail⟩
  else
    explainBody llm

/-- Body of `generate_code` after the language check (the `try` block). -/
def generateBody (llm : LLMOutcome) : Except HTTPError GenerateResponse :=
  match llm with
  | .ok reply => .ok ⟨pyStrip reply⟩
  | .rateLimit msg => .error ⟨500, llmErrDetail msg⟩
  | .fail msg => .error ⟨500, llmErrDetail msg⟩

/-- Handler `generate_code` (backend/main.py, lines 84-104). -/
def generate_code (llm : LLMOutcome) (req : GenerateRequest) :
    Except HTTPError GenerateResponse :=
  if lowerStr req.language ≠ "python".toList then
    .error ⟨400, langRejectDetail⟩
  else
    generateBody llm

/-! ### /fix handler (backend/main.py, lines 109-147)

After the language check and prompt construction, the handler runs the
remote call, extracts `payload` with the regex, runs `json.loads`, and
validates each element of the result with `Edit(**e)`:

* a `pydantic.ValidationError` (element is a dict but fails the `Edit`
  shape) is caught and turned into `HTTPException(500, "AI returned
  malformed edit data")`, which the outer `except Exception` clause then
  re-wraps as a 500 with detail `f"LLM error: {e}"`;
* a non-dict element makes `Edit(**e)` raise `TypeError`, which reaches
  the outer `except Exception` clause directly (also a 500);
* `RateLimitError` alone has its own clause, mapping to a 429.
-/

/-- Why `Edit(**e)` rejects an element: `e` is not a mapping at all
(Python raises `TypeError`), or it is a dict that fails pydantic
validation (`ValidationError`). -/
inductive EditFailure where
  | notMapping
  | validationError
deriving DecidableEq

/-- Lookup in a JSON object as `json.loads` builds the dict: a later
duplicate key shadows an earlier one. -/
def lookupField : List (List Char × Json) → List Char → Option Json
  | [], _ => none
  | (k, v) :: rest, key =>
    match lookupField rest key with
    | some w => some w
    | none => if k = key then some v else none

/-- Read a JSON value as an `int` field of `Edit`. -/
def asInt : Option Json → Option Int
  | some (.num n) => some n
  | _ => none

/-- Read a JSON value as a `str` field of `Edit`. -/
def asStr : Option Json → Option (List Char)
  | some (.str s) => some s
  | _ => none

/-- Validation performed by `Edit(**e)`: `e` must be a dict providing all five required fields
with the declared types (`int` positions, `str` replacement); extra keys
are ignored.  The pydantic lax coercions of other primitive types are
outside the model: a field is accepted exactly when the JSON value already
has the declared type. -/
def validateEdit (j : Json) : Except EditFailure Edit :=
  match j with
  | .obj fields =>
    match asInt (lookupField fields "start_line".toList),
          asInt (lookupField fields "start_char".toList),
          asInt (lookupField fields "end_line".toList),
          asInt (lookupField fields "end_char".toList),
          asStr (lookupField fields "replacement".toList) with
    | some a, some b, some c, some d, some r => .ok ⟨a, b, c, d, r⟩
    | _, _, _, _, _ => .error .validationError
  | _ => .error .notMapping

/-- Final detail of the 500 raised on a pydantic `ValidationError`: the
inner `HTTPException(500, "AI returned malformed edit data")` is re-caught
by `except Exception` and re-wrapped as `f"LLM error: {e}"`. -/
def malformedEditDetail : List Char :=
  "LLM error: 500: AI returned malformed edit data".toList

/-- Detail of the 500 produced when an element is not a mapping and
`Edit(**e)` raises `TypeError`; the interpreter-supplied wording is not
modelled precisely, only the 500 status is meaningful. -/
def notMappingDetail : List Char :=
  llmErrDetail "argument after ** must be a mapping".toList

/-- Detail of the 500 produced when the parsed JSON value is not iterable
and the `for` loop raises `TypeError`; the interpreter-supplied wording is
not modelled precisely, only the 500 status is meaningful. -/
def notIterableDetail : List Char :=
  llmErrDetail "object is not iterable".toList

/-- The `for e in edits_list` validation loop: validated edits accumulate
in order; the first failing element aborts the whole request with a 500. -/
def processEdits : List Json → Except HTTPError (List Edit)
  | [] => .ok []
  | j :: rest =>
    match validateEdit j with
    | .ok e => (processEdits rest).map (fun es => e :: es)
    | .error .validationError => .error ⟨500, malformedEditDetail⟩
    | .error .notMapping => .error ⟨500, notMappingDetail⟩

/-- Post-processing of the `json.loads` outcome: a parse failure is caught
by `except Exception` (500); a parsed array runs the validation loop; a
non-array iterable (dict, string) iterates its keys/characters -- empty
ones yield an empty edit list, non-empty ones make `Edit(**e)` raise
`TypeError` (500); a non-iterable value makes the loop itself raise
`TypeError` (500). -/
def fixPostprocess (parseResult : Except (List Char) Json) :
    Except HTTPError FixResponse :=
  match parseResult with
  | .error msg => .error ⟨500, llmErrDetail msg⟩
  | .ok (.arr items) => (processEdits items).map (fun es => ⟨es⟩)
  | .ok (.obj []) => .ok ⟨[]⟩
  | .ok (.str []) => .ok ⟨[]⟩
  | .ok (.obj (_ :: _)) => .error ⟨500, notMappingDetail⟩
  | .ok (.str (_ :: _)) => .error ⟨500, notMappingDetail⟩
  | .ok _ => .error ⟨500, notIterableDetail⟩

def quotaDetail : List Char :=
  "OpenAI quota exceeded—please check your billing plan.".toList

/-- Body of `fix_code` after the language check (the `try` block and its
`except` clauses): a reply goes through regex extraction, parsing and
validation; `RateLimitError` has its dedicated 429 clause; any other
exception is wrapped into a 500. -/
def fixBody (loads : List Char → Except (List Char) Json)
    (llm : LLMOutcome) : Except HTTPError FixResponse :=
  match llm with
  | .ok raw => fixPostprocess (loads (extractPayload raw))
  | .rateLimit _ => .error ⟨429, quotaDetail⟩
  | .fail msg => .error ⟨500, llmErrDetail msg⟩

/-- Handler `fix_code` (backend/main.py, lines 109-147), with `json.loads`
passed in as `loads`.  The language gate runs first; classification and
prompt construction cannot fail and affect only the prompt sent to the
model, so they leave no trace in the result beyond the `llm` outcome. -/
def fix_code (loads : List Char → Except (List Char) Json)
    (llm : LLMOutcome) (req : FixRequest) : Except HTTPError FixResponse :=
  if lowerStr req.language ≠ "python".toList then
    .error ⟨400, langRejectDetail⟩
  else
    fixBody loads llm

end Backend

deriving instance DecidableEq for Except

namespace Backend

/-! ### Helper lemmas -/

lemma toLower_fixed (n : Nat) (h1 : 65 ≤ n) (h2 : n ≤ 90) :
    (Char.ofNat (n + 32)).toLower = Char.ofNat (n + 32) := by
  interval_cases n <;> decide

lemma toLower_idem (c : Char) : c.toLower.toLower = c.toLower := by
  by_cases h : 65 ≤ c.toNat ∧ c.toNat ≤ 90
  · have hc : c.toLower = Char.ofNat (c.toNat + 32) := by
      simp [Char.toLower, h.1, h.2]
    rw [hc]
    exact toLower_fixed c.toNat h.1 h.2
  · have hc : c.toLower = c := by
      simp [Char.toLower]
      intro h1 h2
      exact absurd ⟨h1, h2⟩ h
    rw [hc, hc]

lemma lowerStr_idem (s : List Char) : lowerStr (lowerStr s) = lowerStr s := by
  induction s with
  | nil => rfl
  | cons c cs ih =>
    simp only [lowerStr, List.map_cons] at *
    rw [toLower_idem]
    exact congrArg _ (by simpa [lowerStr] using ih)

lemma detect_firstMatch (s : List Char) :
    detect_error_type s = firstMatch checks (lowerStr s) := by
  simp only [detect_error_type, checks, firstMatch]

lemma firstMatch_all_false (cs : List ((List Char → Bool) × String)) (m : List Char)
    (h : (cs.all fun pc => !(pc.1 m)) = true) : firstMatch cs m = "general_syntax" := by
  induction cs with
  | nil => rfl
  | cons pc rest ih =>
    obtain ⟨p, c⟩ := pc
    simp only [List.all_cons, Bool.and_eq_true, Bool.not_eq_true'] at h
    simp [firstMatch, h.1, ih h.2]

lemma detect_mem (s : List Char) : detect_error_type s ∈ categories := by
  rw [detect_firstMatch]
  simp only [checks, firstMatch]
  split_ifs <;> simp [categories]

lemma detect_fallback (s : List Char)
    (h : (checks.all fun pc => !(pc.1 (lowerStr s))) = true) :
    detect_error_type s = "general_syntax" := by
  rw [detect_firstMatch]
  exact firstMatch_all_false checks (lowerStr s) h

end Backend

namespace Backend

lemma lastCloseIdx_none (l : List Char) (h : lastCloseIdx l = none) :
    ∀ k, l.get? k ≠ some ']' := by
  induction l with
  | nil => intro k; simp
  | cons c rest ih =>
    intro k
    simp only [lastCloseIdx] at h
    cases hrest : lastCloseIdx rest with
    | some j => rw [hrest] at h; simp at h
    | none =>
      rw [hrest] at h
      have hc : ¬(c = ']') := by
        intro hc
        rw [if_pos hc] at h
        simp at h
      cases k with
      | zero => simpa using fun hcon => hc hcon
      | succ k' => simpa using ih hrest k'

lemma lastCloseIdx_spec (l : List Char) (j : Nat) (h : lastCloseIdx l = some j) :
    l.get? j = some ']' ∧ ∀ k, j < k → l.get? k ≠ some ']' := by
  induction l generalizing j with
  | nil => simp [lastCloseIdx] at h
  | cons c rest ih =>
    simp only [lastCloseIdx] at h
    cases hrest : lastCloseIdx rest with
    | some j' =>
      rw [hrest] at h
      have hj : j = j' + 1 := by
        injection h with h'
        omega
      subst hj
      obtain ⟨hget, hmax⟩ := ih j' hrest
      refine ⟨by simpa using hget, ?_⟩
      intro k hk
      cases k with
      | zero => omega
      | succ k' => simpa using hmax k' (by omega)
    | none =>
      rw [hrest] at h
      by_cases hc : c = ']'
      · rw [if_pos hc] at h
        have hj : j = 0 := by
          injection h with h'
          omega
        subst hj
        refine ⟨by simp [hc], ?_⟩
        intro k hk
        cases k with
        | zero => omega
        | succ k' => simpa using lastCloseIdx_none rest hrest k'
      · rw [if_neg hc] at h
        simp at h

lemma findMatch_spec (l : List Char) (i j : Nat) (h : findMatch l = some (i, j)) :
    l.get? i = some '[' ∧ i < j ∧ l.get? j = some ']' ∧
    (∀ k, k < i → l.get? k ≠ some '[') ∧ (∀ k, j < k → l.get? k ≠ some ']') := by
  induction l generalizing i j with
  | nil => simp [findMatch] at h
  | cons c rest ih =>
    simp only [findMatch] at h
    by_cases hc : c = '['
    · rw [if_pos hc] at h
      cases hrest : lastCloseIdx rest with
      | some j' =>
        rw [hrest] at h
        have hij : 0 = i ∧ j' + 1 = j := by
          simpa [Prod.ext_iff] using h
        obtain ⟨hi, hj⟩ := hij
        subst hi; subst hj
        obtain ⟨hg, hmax⟩ := lastCloseIdx_spec rest j' hrest
        refine ⟨by simp [hc], by omega, by simpa using hg, by intro k hk; omega, ?_⟩
        intro k hk
        cases k with
        | zero => omega
        | succ k' => simpa using hmax k' (by omega)
      | none =>
        rw [hrest] at h
        cases hfm : findMatch rest with
        | none => rw [hfm] at h; simp at h
        | some p =>
          obtain ⟨i', j'⟩ := p
          have hspec := ih i' j' hfm
          exact absurd hspec.2.2.1 (lastCloseIdx_none rest hrest j')
    · rw [if_neg hc] at h
      cases hfm : findMatch rest with
      | none => rw [hfm] at h; simp at h
      | some p =>
        obtain ⟨i', j'⟩ := p
        rw [hfm] at h
        have hij : i' + 1 = i ∧ j' + 1 = j := by
          simpa [Prod.ext_iff] using h
        obtain ⟨hi, hj⟩ := hij
        subst hi; subst hj
        obtain ⟨h1, h2, h3, h4, h5⟩ := ih i' j' hfm
        refine ⟨by simpa using h1, by omega, by simpa using h3, ?_, ?_⟩
        · intro k hk
          cases k with
          | zero => simpa using fun hcon => hc hcon
          | succ k' => simpa using h4 k' (by omega)
        · intro k hk
          cases k with
          | zero => omega
          | succ k' => simpa using h5 k' (by omega)

lemma extractPayload_of_no_pair (raw : List Char)
    (h : ∀ i j, i < j → ¬(raw.get? i = some '[' ∧ raw.get? j = some ']')) :
    extractPayload raw = raw := by
  unfold extractPayload
  cases hfm : findMatch raw with
  | none => rfl
  | some p =>
    obtain ⟨i, j⟩ := p
    obtain ⟨h1, h2, h3, -, -⟩ := findMatch_spec raw i j hfm
    exact absurd ⟨h1, h3⟩ (h i j h2)

end Backend

namespace Backend

lemma processEdits_ok (items : List Json) (es : List Edit)
    (h : processEdits items = .ok es) :
    List.Forall₂ (fun j e => validateEdit j = .ok e) items es := by
  induction items generalizing es with
  | nil =>
    simp only [processEdits] at h
    injection h with h'
    subst h'
    exact List.Forall₂.nil
  | cons j rest ih =>
    simp only [processEdits] at h
    cases hv : validateEdit j with
    | ok e =>
      rw [hv] at h
      cases hrest : processEdits rest with
      | error err => rw [hrest] at h; simp [Except.map] at h
      | ok es' =>
        rw [hrest] at h
        simp only [Except.map] at h
        injection h with h'
        subst h'
        exact List.Forall₂.cons hv (ih es' hrest)
    | error k =>
      rw [hv] at h
      cases k <;> simp at h

lemma processEdits_err (items : List Json)
    (h : ∃ j ∈ items, ∀ e, ¬(validateEdit j = .ok e)) :
    ∃ d, processEdits items = .error ⟨500, d⟩ := by
  induction items with
  | nil => simp at h
  | cons j rest ih =>
    simp only [processEdits]
    cases hv : validateEdit j with
    | ok e =>
      obtain ⟨j0, hj0, hbad⟩ := h
      rcases List.mem_cons.mp hj0 with rfl | hmem
      · exact absurd hv (hbad e)
      · obtain ⟨d, hd⟩ := ih ⟨j0, hmem, hbad⟩
        rw [hd]
        exact ⟨d, by simp [Except.map]⟩
    | error k =>
      cases k with
      | notMapping => exact ⟨notMappingDetail, rfl⟩
      | validationError => exact ⟨malformedEditDetail, rfl⟩

end Backend

namespace Backend

/-! ### Claim theorems -/

/-- A concrete valid /fix request used by the witnesses below. -/
def pyFixReq : FixRequest := ⟨"python".toList, [], [], 0, 0, 0, 0⟩

/-- C1: for every error-message string, `detect_error_type` runs its
keyword checks in the fixed source sequence and returns the category of
the first matching check (`firstMatch checks`), always returns one of the
nine documented categories, and returns the fallback `"general_syntax"`
when no keyword pattern matches. -/
theorem claim1_classifier_first_match (s : List Char) :
    detect_error_type s = firstMatch checks (lowerStr s) ∧
    detect_error_type s ∈ categories ∧
    ((checks.all fun pc => !(pc.1 (lowerStr s))) = true →
      detect_error_type s = "general_syntax") :=
  ⟨detect_firstMatch s, detect_mem s, detect_fallback s⟩

/-- Witness for C1: a message matching no keyword pattern falls back to
the generic category. -/
theorem claim1_witness :
    detect_error_type "TypeError: unsupported operand".toList = "general_syntax" :=
  (claim1_classifier_first_match "TypeError: unsupported operand".toList).2.2 (by decide)

/-- C9: classification is invariant under letter case: lowercasing the
message before classification does not change the result, because
`detect_error_type` lowercases its input before any keyword check. -/
theorem claim9_lower_invariant (s : List Char) :
    detect_error_type (lowerStr s) = detect_error_type s := by
  simp only [detect_error_type, lowerStr_idem]

end Backend

namespace Backend

/-- C5 counterexample: `"SyntaxError: [ was never closed"` contains
`"syntaxerror"` and the bracket character `[`, yet classification returns
`"missing_colon"` (the colon check precedes the bracket checks and the
message contains `:`), not `"missing_bracket"` as the claim requires. -/
theorem claim5_counterexample :
    detect_error_type "SyntaxError: [ was never closed".toList = "missing_colon" ∧
    containsSub "syntaxerror".toList
      (lowerStr "SyntaxError: [ was never closed".toList) = true ∧
    containsSub "[".toList
      (lowerStr "SyntaxError: [ was never closed".toList) = true ∧
    ("missing_colon" : String) ≠ "missing_bracket" := by decide

/-- C5 amended: presence of `"indentationerror"` always selects the
indentation category (it is the first check); presence of
`"syntaxerror"` plus a bracket character selects the matching bracket
category **provided no earlier check in the fixed sequence matches**: the
colon check for all three, additionally the parenthesis check for `[`/`]`
and the bracket check for braces. -/
theorem claim5_keyword_precedence (s : List Char) :
    (containsSub "indentationerror".toList (lowerStr s) = true →
      detect_error_type s = "indentation") ∧
    (containsSub "syntaxerror".toList (lowerStr s) = true →
     containsSub "indentationerror".toList (lowerStr s) = false →
     containsSub ":".toList (lowerStr s) = false →
     containsSub "colon".toList (lowerStr s) = false →
      ((containsSub "(".toList (lowerStr s) = true ∨
        containsSub ")".toList (lowerStr s) = true) →
         detect_error_type s = "missing_parenthesis") ∧
      (containsSub "(".toList (lowerStr s) = false →
       containsSub ")".toList (lowerStr s) = false →
       containsSub "never closed".toList (lowerStr s) = false →
        ((containsSub "[".toList (lowerStr s) = true ∨
          containsSub "]".toList (lowerStr s) = true) →
           detect_error_type s = "missing_bracket") ∧
        (containsSub "[".toList (lowerStr s) = false →
         containsSub "]".toList (lowerStr s) = false →
         (containsSub "\x7b".toList (lowerStr s) = true ∨
          containsSub "\x7d".toList (lowerStr s) = true) →
           detect_error_type s = "missing_brace"))) := by
  refine ⟨fun h1 => ?_,
    fun hs hn1 hc1 hc2 =>
      ⟨fun hp => ?_, fun hp1 hp2 hp3 => ⟨fun hb => ?_, fun hb1 hb2 hbr => ?_⟩⟩⟩
  · simp only [detect_error_type]
    simp_all
  · rcases hp with hp | hp <;> · simp only [detect_error_type]; simp_all
  · rcases hb with hb | hb <;> · simp only [detect_error_type]; simp_all
  · rcases hbr with hbr | hbr <;> · simp only [detect_error_type]; simp_all

/-- Witness for C5 (amended): an indentation message and a
bracket message with no earlier keyword present classify as documented. -/
theorem claim5_witness :
    detect_error_type "IndentationError: unexpected indent".toList = "indentation" ∧
    detect_error_type "syntaxerror near ]".toList = "missing_bracket" :=
  ⟨(claim5_keyword_precedence "IndentationError: unexpected indent".toList).1 (by decide),
   (((claim5_keyword_precedence "syntaxerror near ]".toList).2 (by decide) (by decide)
      (by decide) (by decide)).2 (by decide) (by decide) (by decide)).1
      (Or.inr (by decide))⟩

end Backend

namespace Backend

/-- C2: each of the three handlers rejects a request whose language is not
`"python"` under case-insensitive comparison with HTTP 400, whatever the
remote outcome might have been (so before any remote call can matter),
and lets `"python"` in any letter casing through the check into the
handler body. -/
theorem claim2_language_gate (e : ExplainRequest) (g : GenerateRequest)
    (f : FixRequest) (llm : LLMOutcome)
    (loads : List Char → Except (List Char) Json) :
    (lowerStr e.language ≠ "python".toList →
      explain_snippet llm e = .error ⟨400, langRejectDetail⟩) ∧
    (lowerStr e.language = "python".toList →
      explain_snippet llm e = explainBody llm) ∧
    (lowerStr g.language ≠ "python".toList →
      generate_code llm g = .error ⟨400, langRejectDetail⟩) ∧
    (lowerStr g.language = "python".toList →
      generate_code llm g = generateBody llm) ∧
    (lowerStr f.language ≠ "python".toList →
      fix_code loads llm f = .error ⟨400, langRejectDetail⟩) ∧
    (lowerStr f.language = "python".toList →
      fix_code loads llm f = fixBody loads llm) := by
  refine ⟨fun h => ?_, fun h => ?_, fun h => ?_, fun h => ?_, fun h => ?_, fun h => ?_⟩ <;>
    simp [explain_snippet, generate_code, fix_code, h] <;>
    exact fun hcon => absurd hcon h

/-- Witness for C2: `"JAVA"` is rejected with 400 regardless of the
remote outcome; `"PyThOn"` passes the check. -/
theorem claim2_witness :
    explain_snippet (.fail "boom".toList) ⟨"JAVA".toList, "x".toList⟩ =
      .error ⟨400, langRejectDetail⟩ ∧
    fix_code (fun s => .error s) (.fail "boom".toList)
      ⟨"PyThOn".toList, [], [], 0, 0, 0, 0⟩ =
      fixBody (fun s => .error s) (.fail "boom".toList) :=
  ⟨(claim2_language_gate ⟨"JAVA".toList, "x".toList⟩ ⟨[], []⟩
      ⟨"PyThOn".toList, [], [], 0, 0, 0, 0⟩ (.fail "boom".toList)
      (fun s => .error s)).1 (by decide),
   (claim2_language_gate ⟨"JAVA".toList, "x".toList⟩ ⟨[], []⟩
      ⟨"PyThOn".toList, [], [], 0, 0, 0, 0⟩ (.fail "boom".toList)
      (fun s => .error s)).2.2.2.2.2 (by decide)⟩

/-- C6 counterexample: in `/explain` a `RateLimitError` is caught by the
generic `except Exception` clause, so the handler returns the generic 500,
not a 429: the claim fails for `/explain` (and `/generate`). -/
theorem claim6_counterexample :
    explain_snippet (.rateLimit "quota".toList) ⟨"python".toList, "x".toList⟩ =
      .error ⟨500, llmErrDetail "quota".toList⟩ ∧ (500 : Nat) ≠ 429 := by
  exact ⟨rfl, by decide⟩

/-- C6 amended: only the `/fix` handler has a dedicated
`except RateLimitError` clause mapping quota exhaustion to HTTP 429;
`/explain` and `/generate` map it to the generic 500 like any other
upstream failure. -/
theorem claim6_rate_limit_status (e : ExplainRequest) (g : GenerateRequest)
    (f : FixRequest) (loads : List Char → Except (List Char) Json)
    (m : List Char) :
    (lowerStr f.language = "python".toList →
      fix_code loads (.rateLimit m) f = .error ⟨429, quotaDetail⟩) ∧
    (lowerStr e.language = "python".toList →
      explain_snippet (.rateLimit m) e = .error ⟨500, llmErrDetail m⟩) ∧
    (lowerStr g.language = "python".toList →
      generate_code (.rateLimit m) g = .error ⟨500, llmErrDetail m⟩) := by
  refine ⟨fun h => ?_, fun h => ?_, fun h => ?_⟩ <;>
    simp [fix_code, explain_snippet, generate_code, fixBody, explainBody,
      generateBody, h]

/-- Witness for C6 (amended): concrete rate-limited calls. -/
theorem claim6_witness :
    fix_code (fun s => .error s) (.rateLimit "q".toList) pyFixReq =
      .error ⟨429, quotaDetail⟩ ∧
    explain_snippet (.rateLimit "q".toList) ⟨"python".toList, "x".toList⟩ =
      .error ⟨500, llmErrDetail "q".toList⟩ :=
  ⟨(claim6_rate_limit_status ⟨"python".toList, "x".toList⟩ ⟨"python".toList, []⟩
      pyFixReq (fun s => .error s) "q".toList).1 (by decide),
   (claim6_rate_limit_status ⟨"python".toList, "x".toList⟩ ⟨"python".toList, []⟩
      pyFixReq (fun s => .error s) "q".toList).2.1 (by decide)⟩

end Backend

namespace Backend

/-- C3: in `/fix`, a reply that `json.loads` rejects, or a parsed array
containing any element that fails validation against the `Edit` shape,
aborts the whole request with an HTTP 500; no partial edit list is ever
returned (the result is an error, not a response). -/
theorem claim3_fix_failures_500 (loads : List Char → Except (List Char) Json)
    (raw : List Char) (f : FixRequest)
    (hl : lowerStr f.language = "python".toList) :
    (∀ m, loads (extractPayload raw) = .error m →
      fix_code loads (.ok raw) f = .error ⟨500, llmErrDetail m⟩) ∧
    (∀ items, loads (extractPayload raw) = .ok (.arr items) →
      (∃ j ∈ items, ∀ e, ¬(validateEdit j = .ok e)) →
      ∃ d, fix_code loads (.ok raw) f = .error ⟨500, d⟩) := by
  constructor
  · intro m hm
    simp [fix_code, hl, fixBody, hm, fixPostprocess]
  · intro items hitems hbad
    obtain ⟨d, hd⟩ := processEdits_err items hbad
    refine ⟨d, ?_⟩
    simp [fix_code, hl, fixBody, hitems, fixPostprocess, hd, Except.map]

/-- Witness for C3: an unparseable reply yields the wrapped 500; a parsed
array whose single element is an empty object (missing every required
field) yields a 500. -/
theorem claim3_witness :
    fix_code (fun _ => .error "Expecting value".toList) (.ok "no json".toList)
      pyFixReq = .error ⟨500, llmErrDetail "Expecting value".toList⟩ ∧
    (∃ d, fix_code (fun _ => .ok (.arr [.obj []])) (.ok "[]".toList)
      pyFixReq = .error ⟨500, d⟩) :=
  ⟨(claim3_fix_failures_500 (fun _ => .error "Expecting value".toList)
      "no json".toList pyFixReq (by decide)).1 "Expecting value".toList rfl,
   (claim3_fix_failures_500 (fun _ => .ok (.arr [.obj []])) "[]".toList
      pyFixReq (by decide)).2 [.obj []] rfl
      ⟨.obj [], by simp, fun e he => by
        have hv : validateEdit (.obj []) = .error .validationError := rfl
        rw [hv] at he
        exact Except.noConfusion he⟩⟩

/-- C4 counterexample: for the reply `"x [1] y [2] z"` the greedy regex
match makes extraction return `"[1] y [2]"` -- from the first `[` to the
**last** `]` -- and not `"[1]"`, the substring ending at the first
matching `]` that the claim describes. -/
theorem claim4_counterexample :
    extractPayload "x [1] y [2] z".toList = "[1] y [2]".toList ∧
    extractPayload "x [1] y [2] z".toList ≠ "[1]".toList := by decide

/-- C4 amended: the post-processor extracts the substring of the raw
reply running from the first `[` to the **last** `]` (the greedy match of
`\[.*\]`), and the `/fix` pipeline parses exactly that extracted
substring. -/
theorem claim4_extraction_greedy (raw : List Char) (i j : Nat)
    (h : findMatch raw = some (i, j))
    (loads : List Char → Except (List Char) Json) (f : FixRequest)
    (hl : lowerStr f.language = "python".toList) :
    extractPayload raw = (raw.drop i).take (j + 1 - i) ∧
    raw.get? i = some '[' ∧ (∀ k, k < i → raw.get? k ≠ some '[') ∧
    raw.get? j = some ']' ∧ (∀ k, j < k → raw.get? k ≠ some ']') ∧ i < j ∧
    fix_code loads (.ok raw) f = fixPostprocess (loads (extractPayload raw)) := by
  obtain ⟨h1, h2, h3, h4, h5⟩ := findMatch_spec raw i j h
  refine ⟨by simp [extractPayload, h], h1, h4, h3, h5, h2, ?_⟩
  simp [fix_code, hl, fixBody]

/-- Witness for C4 (amended): `"ab [1] c"` matches at indices 3-5. -/
theorem claim4_witness :
    extractPayload "ab [1] c".toList =
      ("ab [1] c".toList.drop 3).take (5 + 1 - 3) ∧
    "ab [1] c".toList.get? 3 = some '[' ∧
    (∀ k, k < 3 → "ab [1] c".toList.get? k ≠ some '[') ∧
    "ab [1] c".toList.get? 5 = some ']' ∧
    (∀ k, 5 < k → "ab [1] c".toList.get? k ≠ some ']') ∧ 3 < 5 ∧
    fix_code (fun s => .error s) (.ok "ab [1] c".toList) pyFixReq =
      fixPostprocess (.error (extractPayload "ab [1] c".toList)) :=
  claim4_extraction_greedy "ab [1] c".toList 3 5 (by decide)
    (fun s => .error s) pyFixReq (by decide)

end Backend

namespace Backend

/-- C7 counterexample: the `Edit` model declares plain `int` fields, so
nothing enforces non-negativity: a model reply whose edit carries
`start_line = -1` validates and is returned in a successful
`FixResponse`. -/
theorem claim7_counterexample :
    fix_code (fun _ => .ok (.arr [.obj [("start_line".toList, .num (-1)),
        ("start_char".toList, .num 0), ("end_line".toList, .num 0),
        ("end_char".toList, .num 0), ("replacement".toList, .str "x".toList)]]))
      (.ok "irrelevant".toList) pyFixReq =
      .ok ⟨[⟨-1, 0, 0, 0, "x".toList⟩]⟩ ∧ (-1 : Int) < 0 :=
  ⟨rfl, by decide⟩

/-- C7 amended: every `Edit` in a successfully returned `FixResponse`
has integer values in all four position fields, taken verbatim from the
JSON sent by the model; the server performs no sign check, so any integers --
negative ones included -- pass through unchanged. -/
theorem claim7_positions_verbatim (a b c d : Int) (r : List Char)
    (f : FixRequest) (raw : List Char)
    (hl : lowerStr f.language = "python".toList) :
    fix_code (fun _ => .ok (.arr [.obj [("start_line".toList, .num a),
        ("start_char".toList, .num b), ("end_line".toList, .num c),
        ("end_char".toList, .num d), ("replacement".toList, .str r)]]))
      (.ok raw) f = .ok ⟨[⟨a, b, c, d, r⟩]⟩ := by
  simp [fix_code, hl, fixBody, fixPostprocess, processEdits, validateEdit,
    lookupField, asInt, asStr, Except.map]

/-- Witness for C7 (amended): all four positions `-5` survive to the
response. -/
theorem claim7_witness :
    fix_code (fun _ => .ok (.arr [.obj [("start_line".toList, .num (-5)),
        ("start_char".toList, .num (-5)), ("end_line".toList, .num (-5)),
        ("end_char".toList, .num (-5)), ("replacement".toList, .str "y".toList)]]))
      (.ok "[]".toList) pyFixReq = .ok ⟨[⟨-5, -5, -5, -5, "y".toList⟩]⟩ :=
  claim7_positions_verbatim (-5) (-5) (-5) (-5) "y".toList pyFixReq
    "[]".toList (by decide)

end Backend

namespace Backend

/-- C8: a successful `/fix` response contains exactly the validated
images of the elements of the parsed JSON array, pointwise and in the same
order (`List.Forall₂`), with no server-side reordering and no
deduplication. -/
theorem claim8_order_preserved (loads : List Char → Except (List Char) Json)
    (raw : List Char) (f : FixRequest) (items : List Json)
    (resp : FixResponse)
    (hl : lowerStr f.language = "python".toList)
    (hp : loads (extractPayload raw) = .ok (.arr items))
    (hok : fix_code loads (.ok raw) f = .ok resp) :
    resp.edits.length = items.length ∧
    List.Forall₂ (fun j e => validateEdit j = .ok e) items resp.edits := by
  have hfix : fixPostprocess (loads (extractPayload raw)) = .ok resp := by
    simpa [fix_code, hl, fixBody] using hok
  rw [hp] at hfix
  simp only [fixPostprocess] at hfix
  cases hpe : processEdits items with
  | error err => rw [hpe] at hfix; simp [Except.map] at hfix
  | ok es =>
    rw [hpe] at hfix
    simp only [Except.map] at hfix
    injection hfix with h'
    have hes : resp = ⟨es⟩ := h'.symm
    subst hes
    have hf := processEdits_ok items es hpe
    exact ⟨(List.Forall₂.length_eq hf).symm, hf⟩

/-- A JSON edit object used by the C8 witness (twice, to exhibit the
absence of deduplication). -/
def dupEditJson : Json :=
  .obj [("start_line".toList, .num 1), ("start_char".toList, .num 1),
    ("end_line".toList, .num 1), ("end_char".toList, .num 1),
    ("replacement".toList, .str "z".toList)]

/-- Witness for C8: a reply parsing to two identical edit objects returns
both, in order. -/
theorem claim8_witness :
    ([⟨1, 1, 1, 1, "z".toList⟩, ⟨1, 1, 1, 1, "z".toList⟩] : List Edit).length =
      ([dupEditJson, dupEditJson] : List Json).length ∧
    List.Forall₂ (fun j e => validateEdit j = .ok e)
      [dupEditJson, dupEditJson] [⟨1, 1, 1, 1, "z".toList⟩, ⟨1, 1, 1, 1, "z".toList⟩] :=
  claim8_order_preserved (fun _ => .ok (.arr [dupEditJson, dupEditJson]))
    "[]".toList pyFixReq [dupEditJson, dupEditJson]
    ⟨[⟨1, 1, 1, 1, "z".toList⟩, ⟨1, 1, 1, 1, "z".toList⟩]⟩
    (by decide) rfl rfl

/-- C10: when the raw reply contains no `[`...`]` bracketed substring at
all, the regex does not match, extraction falls back to the whole reply,
and the pipeline parses the entire raw reply rather than failing. -/
theorem claim10_no_bracket_fallback (raw : List Char)
    (h : ∀ i j, i < j → ¬(raw.get? i = some '[' ∧ raw.get? j = some ']'))
    (loads : List Char → Except (List Char) Json) (f : FixRequest)
    (hl : lowerStr f.language = "python".toList) :
    extractPayload raw = raw ∧
    fix_code loads (.ok raw) f = fixPostprocess (loads raw) := by
  have he := extractPayload_of_no_pair raw h
  exact ⟨he, by simp [fix_code, hl, fixBody, he]⟩

/-- Witness for C10: a bracket-free reply is parsed whole. -/
theorem claim10_witness :
    extractPayload "no json here".toList = "no json here".toList ∧
    fix_code (fun s => .error s) (.ok "no json here".toList) pyFixReq =
      fixPostprocess (.error "no json here".toList) := by
  have h : ∀ i j, i < j →
      ¬("no json here".toList.get? i = some '[' ∧
        "no json here".toList.get? j = some ']') := by
    intro i j hij hpair
    have hm := List.get?_mem hpair.1
    revert hm
    decide
  have hc := claim10_no_bracket_fallback "no json here".toList h
    (fun s => .error s) pyFixReq (by decide)
  simpa using hc

end Backend
